import Mathlib

/-!
# Vivteno — shallow embedding of the monitoring core

This file embeds the polling-and-state-update engine of the Vivteno website
health monitor (Go, Bubble Tea) in Lean 4 and proves the specified properties
about it.  The embedding follows the multi-target source (`main.go`):

* the Bubble Tea `model` struct becomes `Model` (the `context.Context` and
  `cancel` fields, which carry no observable state for the update logic, are
  dropped; `quit` is kept);
* `tea.Msg` values (`tickMsgWithIndex`, `pingResultWithIndex`,
  `healthResultGenericWithIndex`, `tea.KeyMsg`) become the inductive `Msg`;
* a `tea.Cmd` returned by `Update` is an opaque thunk in Go; what matters for
  the spec is *which* asynchronous operation it will perform, so commands are
  embedded as the inductive `Cmd` recording that operation and its target
  index.  A `nil` command is `Option.none`;
* calls into the Go standard library (`time.ParseDuration`, `net.ParseIP`,
  `json.Unmarshal`, `time.LoadLocation`, the HTTP transport, `time.Now`) are
  external to the repository and are modelled as explicit oracle parameters;
  every control-flow decision the repository makes on their results is
  translated faithfully.
-/

namespace Vivteno

/-- `map[string]any` health payloads: a flat association list from string keys
to (stringified) values.  The repository never inspects the values except to
render them, so a single value type suffices. -/
abbrev HealthData := List (String × String)

/-- Result of `time.ParseDuration` (nanoseconds), `none` on parse error. -/
abbrev DurOracle := String → Option Int

/-- Whether `net.ParseIP(host) != nil`. -/
abbrev IPOracle := String → Bool

/-- Result of `json.Unmarshal` into `[]string`, `none` on error. -/
abbrev ListOracle := String → Option (List String)

/-- Result of `json.Unmarshal` into `map[string]any`: the parsed object, or
`Except.error` carrying the unmarshal error text. -/
abbrev JsonOracle := String → Except String HealthData

/-- Constants from the source. -/
def DefaultSchedule : String := "10s"

/-- `DefaultSleepBackoff = 10 * time.Second`, in nanoseconds. -/
def DefaultSleepBackoffNs : Int := 10000000000

/-- The asynchronous operation a returned `tea.Cmd` will perform. -/
inductive Cmd where
  /-- `pingWebsiteCmdWithContext ctx website idx`: a reachability probe. -/
  | ping (website : String) (idx : Nat)
  /-- `fetchHealthCmdWithContext ctx website healthEndpoint idx`: a health probe. -/
  | fetchHealth (website : String) (healthEndpoint : String) (idx : Nat)
  /-- the thunk built by `schedulePing`: sleep `durationNs`, then deliver a
  `tickMsgWithIndex` for `idx`. -/
  | sleepTick (durationNs : Int) (idx : Nat)
  /-- `tea.Quit`. -/
  | quit
  deriving DecidableEq, Repr

/-- The messages `model.Update` dispatches on. -/
inductive Msg where
  /-- `tickMsgWithIndex` (the `Time` field is never read by `Update`). -/
  | tick (idx : Nat)
  /-- `pingResultWithIndex{Result, Err, Index}`; `err = some e` models
  `Err != nil` with error text `e`. -/
  | pingRes (result : String) (err : Option String) (idx : Nat)
  /-- `healthResultGenericWithIndex{Data, Err, Index}`. -/
  | healthRes (data : Option HealthData) (err : Option String) (idx : Nat)
  /-- `tea.KeyMsg`, as its `String()` value. -/
  | key (k : String)
  deriving DecidableEq, Repr

/-- The Bubble Tea `model` struct (state store).  `timezone` keeps only the
location's name (`none` models `nil`); the context fields are dropped. -/
structure Model where
  websites : List String
  schedule : String
  healthEndpoint : List String
  lastPing : List String
  lastError : List String
  lastHealthGeneric : List (Option HealthData)
  timezone : Option String
  quit : Bool
  deriving DecidableEq, Repr

/-- `schedulePing(schedule, idx)`: parse the schedule, falling back to
`DefaultSleepBackoff` on a parse error, and build the delayed-tick command. -/
def schedulePing (pd : DurOracle) (schedule : String) (idx : Nat) : Cmd :=
  let dur : Int :=
    match pd schedule with
    | some d => d
    | none => DefaultSleepBackoffNs
  Cmd.sleepTick dur idx

/-- `model.Update`.  List updates use `List.set` / `List.getD`, which agree
with Go slice indexing whenever the index is in range (messages carry indices
created from `m.websites` positions, so they always are; theorems that read a
cell back carry the in-range hypothesis explicitly). -/
def update (pd : DurOracle) (m : Model) (msg : Msg) : Model × Option Cmd :=
  match msg with
  | Msg.tick idx =>
      (m, some (Cmd.ping (m.websites.getD idx "") idx))
  | Msg.pingRes result err idx =>
      match err with
      | some e =>
          ({ m with
              lastError := m.lastError.set idx e,
              lastPing := m.lastPing.set idx "",
              lastHealthGeneric := m.lastHealthGeneric.set idx none },
           some (schedulePing pd m.schedule idx))
      | none =>
          let m1 := { m with
              lastPing := m.lastPing.set idx result,
              lastError := m.lastError.set idx "" }
          if idx < m1.healthEndpoint.length ∧ m1.healthEndpoint.getD idx "" ≠ "" then
            (m1, some (Cmd.fetchHealth (m1.websites.getD idx "")
                        (m1.healthEndpoint.getD idx "") idx))
          else
            (m1, some (schedulePing pd m1.schedule idx))
  | Msg.healthRes data err idx =>
      match err with
      | none =>
          ({ m with lastHealthGeneric := m.lastHealthGeneric.set idx data },
           some (schedulePing pd m.schedule idx))
      | some e =>
          ({ m with
              lastHealthGeneric := m.lastHealthGeneric.set idx none,
              lastError := m.lastError.set idx e },
           some (schedulePing pd m.schedule idx))
  | Msg.key k =>
      if k = "ctrl+c" ∨ k = "q" then
        ({ m with quit := true }, some Cmd.quit)
      else
        (m, none)

/-- What the HTTP transport hands back to the body of
`fetchHealthCmdWithContext`: an error from `http.NewRequestWithContext`,
from `http.DefaultClient.Do`, from `io.ReadAll`, or a complete response. -/
inductive NetOutcome where
  | reqErr (e : String)
  | doErr (e : String)
  | readErr (e : String)
  | resp (status : Nat) (body : String)
  deriving DecidableEq, Repr

/-- The `healthResultGenericWithIndex` message built by the health command. -/
structure HealthResult where
  data : Option HealthData
  err : Option String
  index : Nat
  deriving DecidableEq, Repr

/-- Body of the thunk returned by `fetchHealthCmdWithContext`.  The early
return for an empty `healthEndpoint` happens before any request is built, so
the result is then independent of the `net` and `parse` oracles. -/
def fetchHealthCmdWithContext (healthEndpoint : String) (net : NetOutcome)
    (parse : JsonOracle) (idx : Nat) : HealthResult :=
  if healthEndpoint = "" then
    { data := none, err := some "health endpoint not configured", index := idx }
  else
    match net with
    | NetOutcome.reqErr e => { data := none, err := some e, index := idx }
    | NetOutcome.doErr e => { data := none, err := some e, index := idx }
    | NetOutcome.readErr e => { data := none, err := some e, index := idx }
    | NetOutcome.resp status body =>
        if status < 200 ∨ 300 ≤ status then
          { data := none,
            err := some ("health endpoint HTTP " ++ toString status ++ ": " ++ body),
            index := idx }
        else
          match parse body with
          | Except.error e =>
              { data := none,
                err := some ("invalid JSON from health endpoint: " ++ e
                              ++ "\nBody: " ++ body),
                index := idx }
          | Except.ok d => { data := some d, err := none, index := idx }

/-- Split a character list at each occurrence of `sep`, keeping empty fields
(structurally recursive, so proofs can evaluate it). -/
def splitCharAux (sep : Char) : List Char → List Char → List (List Char)
  | [], acc => [acc.reverse]
  | c :: cs, acc =>
      if c = sep then acc.reverse :: splitCharAux sep cs []
      else splitCharAux sep cs (c :: acc)

/-- Split a string at each occurrence of the single character `sep`, keeping
empty fields: `strings.Split(s, string(sep))`. -/
def splitChar (sep : Char) (s : String) : List String :=
  (splitCharAux sep s.data []).map String.mk

/-- A character allowed in a hostname label by the source's regular
expression character class `[a-zA-Z0-9-]`. -/
def isHostChar (c : Char) : Bool :=
  c.isAlpha || c.isDigit || c = '-'

/-- Match against `^([a-zA-Z0-9-]+\.)*[a-zA-Z0-9-]+$`: the host is a
dot-separated sequence of one or more nonempty labels over `[a-zA-Z0-9-]`. -/
def hostnamePatternMatch (host : String) : Bool :=
  (splitChar '.' host).all (fun l => !l.data.isEmpty && l.data.all isHostChar)

/-- `isValidHostname`. -/
def isValidHostname (pip : IPOracle) (host : String) : Bool :=
  pip host || hostnamePatternMatch host

/-- `isValidSchedule`. -/
def isValidSchedule (pd : DurOracle) (s : String) : Bool :=
  (pd s).isSome

/-- The Go standard-library calls `main` makes, as oracles.
`loadLocation` is `time.LoadLocation`: `none` on error, otherwise the loaded
location (kept as its name). -/
structure Oracles where
  parseIP : IPOracle
  parseStringList : ListOracle
  parseDuration : DurOracle
  loadLocation : String → Option String

/-- The configuration `main` hands to `initialModel` when startup succeeds.
`timezone = none` models `time.Local` (the `TIMEZONE` variable was unset). -/
structure Config where
  websites : List String
  schedule : String
  timezone : Option String
  healthEndpoints : List String
  deriving DecidableEq, Repr

/-- Outcome of `main`'s configuration phase: either `os.Exit(1)` after
printing `message`, or entering the monitoring loop with `cfg`. -/
inductive StartupResult where
  | exitFailure (message : String)
  | run (cfg : Config)
  deriving DecidableEq, Repr

/-- Whether startup aborted the process. -/
def StartupResult.isFailure : StartupResult → Bool
  | StartupResult.exitFailure _ => true
  | StartupResult.run _ => false

/-- The configuration phase of `main`, up to the construction of the initial
model: parse `PING_WEBSITE` as a JSON string array, validate each hostname,
default and validate `PING_SCHEDULE`, load `TIMEZONE`, and resolve
`HEALTH_ENDPOINT` (JSON array of matching length, or a single path replicated
for every website, or empty = disabled everywhere). -/
def mainStartup (o : Oracles) (websiteEnv scheduleEnv timezoneEnv healthEnv : String) :
    StartupResult :=
  match o.parseStringList websiteEnv with
  | none => StartupResult.exitFailure
      "PING_WEBSITE must be a JSON array of at least one website"
  | some websites =>
    if websites.isEmpty then
      StartupResult.exitFailure
        "PING_WEBSITE must be a JSON array of at least one website"
    else
      match websites.find? (fun w => !isValidHostname o.parseIP w) with
      | some w => StartupResult.exitFailure ("Invalid website in PING_WEBSITE: " ++ w)
      | none =>
        let schedule := if scheduleEnv = "" then DefaultSchedule else scheduleEnv
        if !isValidSchedule o.parseDuration schedule then
          StartupResult.exitFailure ("Invalid PING_SCHEDULE: " ++ schedule)
        else
          let tzRes : Except String (Option String) :=
            if timezoneEnv ≠ "" then
              match o.loadLocation timezoneEnv with
              | none => Except.error ("Invalid TIMEZONE: " ++ timezoneEnv)
              | some loc => Except.ok (some loc)
            else Except.ok none
          match tzRes with
          | Except.error msg => StartupResult.exitFailure msg
          | Except.ok tz =>
            if healthEnv ≠ "" then
              match o.parseStringList healthEnv with
              | none =>
                  StartupResult.run
                    { websites := websites, schedule := schedule, timezone := tz,
                      healthEndpoints := websites.map (fun _ => healthEnv) }
              | some hs =>
                  if hs.length ≠ websites.length then
                    StartupResult.exitFailure
                      "HEALTH_ENDPOINT must be a JSON array with the same length as PING_WEBSITE, or a single string."
                  else
                    StartupResult.run
                      { websites := websites, schedule := schedule, timezone := tz,
                        healthEndpoints := hs }
            else
              StartupResult.run
                { websites := websites, schedule := schedule, timezone := tz,
                  healthEndpoints := websites.map (fun _ => "") }

/-- The lipgloss styles, as pure string transformations.  A lipgloss
`Style.Render` is deterministic for a fixed style value; only its content
argument matters here, so each style is an abstract `String → String`.
(`section` is a Lean keyword, hence `sectionTitle` for the title style.) -/
structure Styles where
  header : String → String
  sectionTitle : String → String
  info : String → String
  error : String → String
  healthKey : String → String
  healthValue : String → String
  footer : String → String

/-- `renderSection`. -/
def renderSection (st : Styles) (title value : String) : String :=
  st.sectionTitle title ++ " " ++ st.info value

/-- `renderHealthSection`.  `fmtTs` models the composite
`time.Parse(RFC3339, s)` + `t.In(tz).Format(...)` step: `some t` when the
model's timezone is non-nil and the stored string parses, else `none` (keep
the raw string).  Go iterates the map in unspecified order; the list model
fixes insertion order. -/
def renderHealthSection (st : Styles) (fmtTs : String → Option String)
    (data : HealthData) : String :=
  let lines := st.sectionTitle "Health Endpoint:" ::
    data.map (fun kv =>
      let s :=
        if kv.1 = "timestamp" ∨ kv.1 = "time" ∨ kv.1 = "date" then
          match fmtTs kv.2 with
          | some t => t
          | none => kv.2
        else kv.2
      "  " ++ st.healthKey (kv.1 ++ ":") ++ " " ++ st.healthValue s)
  String.intercalate "\n" lines

/-- `strings.Split(s, "\n")`. -/
def splitLines (s : String) : List String :=
  splitChar '\n' s

/-- The per-website body of `model.View`'s loop, for website index `i`.
`nowStr` is the already-formatted value of `time.Now()` (in the model's
timezone) at the moment `View` runs — `View` reads the clock, so the clock is
an explicit input of the embedding. -/
def viewTarget (st : Styles) (fmtTs : String → Option String) (nowStr : String)
    (m : Model) (i : Nat) (website : String) : String :=
  let base := renderSection st "Website:" website ++ "\n"
      ++ renderSection st "Schedule:" m.schedule ++ "\n"
  let pingSec :=
    if m.lastPing.getD i "" ≠ "" then
      "\n" ++ renderSection st "Last checked:" nowStr ++ "\n"
        ++ String.intercalate "\n" ((splitLines (m.lastPing.getD i "")).map st.info)
        ++ "\n"
    else ""
  let healthSec :=
    if i < m.healthEndpoint.length ∧ m.healthEndpoint.getD i "" ≠ ""
        ∧ (m.lastHealthGeneric.getD i none).isSome then
      "\n" ++ renderHealthSection st fmtTs ((m.lastHealthGeneric.getD i none).getD [])
        ++ "\n"
    else ""
  let errSec :=
    if m.lastError.getD i "" ≠ "" then
      "\n" ++ st.error ("FAILED: " ++ m.lastError.getD i "") ++ "\n"
    else ""
  base ++ pingSec ++ healthSec ++ errSec

/-- `model.View`: header, one section per website (separated by a dashed rule
when there is more than one website), footer. -/
def view (st : Styles) (fmtTs : String → Option String) (nowStr : String)
    (m : Model) : String :=
  let n := m.websites.length
  let sections := m.websites.enum.map (fun p =>
    viewTarget st fmtTs nowStr m p.1 p.2
      ++ (if 1 < n ∧ p.1 < n - 1 then
            "\n" ++ String.mk (List.replicate 40 '-') ++ "\n\n"
          else ""))
  st.header " Vivteno - Website Health Monitor " ++ "\n\n"
    ++ String.join sections
    ++ st.footer "Press q or Ctrl+C to quit."

/-- The target index a per-target message is about (`none` for key input). -/
def Msg.targetIndex : Msg → Option Nat
  | Msg.tick i => some i
  | Msg.pingRes _ _ i => some i
  | Msg.healthRes _ _ i => some i
  | Msg.key _ => none

/-- The target a command schedules an asynchronous operation for: probes and
delayed timers carry their index, `tea.Quit` schedules nothing. -/
def Cmd.scheduledFor : Cmd → Option Nat
  | Cmd.ping _ i => some i
  | Cmd.fetchHealth _ _ i => some i
  | Cmd.sleepTick _ i => some i
  | Cmd.quit => none

/-! Concrete fixtures used to instantiate the theorems below. -/

/-- A duration oracle knowing only `"10s"` (= 10×10⁹ ns), like
`time.ParseDuration` on that input. -/
def pd0 : DurOracle := fun s => if s = "10s" then some 10000000000 else none

/-- A JSON oracle accepting only the body `"ok"`. -/
def parse0 : JsonOracle := fun s =>
  if s = "ok" then Except.ok [("status", "up")] else Except.error "bad"

/-- A single-target model with a configured health path and a stored ping
success, error text cleared, and a stored health payload. -/
def mA : Model :=
  { websites := ["a.com"], schedule := "10s", healthEndpoint := ["/health"],
    lastPing := ["old ping"], lastError := [""],
    lastHealthGeneric := [some [("status", "ok")]],
    timezone := none, quit := false }

/-- A single-target model with no configured health path and nothing stored. -/
def mB : Model :=
  { websites := ["b.com"], schedule := "10s", healthEndpoint := [""],
    lastPing := [""], lastError := [""], lastHealthGeneric := [none],
    timezone := none, quit := false }

/-- Styles that return their content unchanged. -/
def idStyles : Styles :=
  { header := fun s => s, sectionTitle := fun s => s, info := fun s => s,
    error := fun s => s, healthKey := fun s => s, healthValue := fun s => s,
    footer := fun s => s }

/-- A timestamp formatter that never rewrites (models `timezone = nil`). -/
def fmt0 : String → Option String := fun _ => none

/-- A concrete oracle set for startup: no IPs, string-list parsing knowing two
inputs, durations knowing `"10s"`, no loadable timezones. -/
def oracles0 : Oracles :=
  { parseIP := fun _ => false,
    parseStringList := fun s =>
      if s = "good" then some ["a.com"]
      else if s = "two" then some ["a.com", "b.com"]
      else if s = "empty" then some []
      else if s = "bad-entry" then some [""]
      else if s = "one-path" then some ["/health"]
      else none,
    parseDuration := fun s => if s = "10s" then some 10000000000 else none,
    loadLocation := fun _ => none }

/-- C1: applying a reachability (ping) failure event for target `i` clears the
stored health outcome for `i` to unknown (`none`), records the error text in
the last-error cell, and clears the stored ping success text. -/
theorem ping_failure_clears_health (pd : DurOracle) (m : Model) (r e : String)
    (i : Nat) (hh : i < m.lastHealthGeneric.length) (he : i < m.lastError.length)
    (hp : i < m.lastPing.length) :
    (update pd m (Msg.pingRes r (some e) i)).1.lastHealthGeneric.getD i (some []) = none
    ∧ (update pd m (Msg.pingRes r (some e) i)).1.lastError.getD i "" = e
    ∧ (update pd m (Msg.pingRes r (some e) i)).1.lastPing.getD i "nonempty" = "" := by
  refine ⟨?_, ?_, ?_⟩ <;> simp [update, List.getD, hh, he, hp]

/-- Witness for C1: the ping-failure event on the concrete model `mA`. -/
theorem ping_failure_clears_health_witness :
    (update pd0 mA (Msg.pingRes "r" (some "boom") 0)).1.lastHealthGeneric.getD 0 (some []) = none
    ∧ (update pd0 mA (Msg.pingRes "r" (some "boom") 0)).1.lastError.getD 0 "" = "boom"
    ∧ (update pd0 mA (Msg.pingRes "r" (some "boom") 0)).1.lastPing.getD 0 "nonempty" = "" :=
  ping_failure_clears_health pd0 mA "r" "boom" 0 (by decide) (by decide) (by decide)

/-- C2: every per-target event (timer tick, ping result, health result) makes
`Update` return exactly one scheduled operation — a probe or a delayed timer —
for that same target, never `nil` and never `tea.Quit`. -/
theorem update_schedules_exactly_one (pd : DurOracle) (m : Model) (msg : Msg)
    (i : Nat) (h : msg.targetIndex = some i) :
    ∃ c, (update pd m msg).2 = some c ∧ c.scheduledFor = some i := by
  cases msg with
  | tick idx =>
      obtain rfl : idx = i := by simpa [Msg.targetIndex] using h
      exact ⟨_, rfl, rfl⟩
  | pingRes r err idx =>
      obtain rfl : idx = i := by simpa [Msg.targetIndex] using h
      cases err with
      | some e => exact ⟨_, rfl, rfl⟩
      | none =>
          simp only [update]
          split
          · exact ⟨_, rfl, rfl⟩
          · exact ⟨_, rfl, rfl⟩
  | healthRes d err idx =>
      obtain rfl : idx = i := by simpa [Msg.targetIndex] using h
      cases err with
      | some e => exact ⟨_, rfl, rfl⟩
      | none => exact ⟨_, rfl, rfl⟩
  | key k => simp [Msg.targetIndex] at h

/-- Witness for C2: the tick event for target 0 on the concrete model `mA`. -/
theorem update_schedules_exactly_one_witness :
    ∃ c, (update pd0 mA (Msg.tick 0)).2 = some c ∧ c.scheduledFor = some 0 :=
  update_schedules_exactly_one pd0 mA (Msg.tick 0) 0 rfl

/-- C4: applying a health-check failure event leaves the stored reachability
success text untouched (the whole `lastPing` list is unchanged), while the
health error text is recorded in the last-error cell and the stored health
JSON is cleared. -/
theorem health_failure_preserves_ping (pd : DurOracle) (m : Model)
    (d : Option HealthData) (e : String) (i : Nat)
    (he : i < m.lastError.length) (hh : i < m.lastHealthGeneric.length) :
    (update pd m (Msg.healthRes d (some e) i)).1.lastPing = m.lastPing
    ∧ (update pd m (Msg.healthRes d (some e) i)).1.lastError.getD i "" = e
    ∧ (update pd m (Msg.healthRes d (some e) i)).1.lastHealthGeneric.getD i (some []) = none := by
  refine ⟨rfl, ?_, ?_⟩ <;> simp [update, List.getD, he, hh]

/-- Witness for C4: a health failure on the concrete model `mA`, whose stored
ping success survives. -/
theorem health_failure_preserves_ping_witness :
    (update pd0 mA (Msg.healthRes none (some "HTTP 500") 0)).1.lastPing = mA.lastPing
    ∧ (update pd0 mA (Msg.healthRes none (some "HTTP 500") 0)).1.lastError.getD 0 "" = "HTTP 500"
    ∧ (update pd0 mA (Msg.healthRes none (some "HTTP 500") 0)).1.lastHealthGeneric.getD 0 (some []) = none :=
  health_failure_preserves_ping pd0 mA none "HTTP 500" 0 (by decide) (by decide)

/-- C5: with an empty health path, the health command returns the
"not configured" sentinel immediately; the result does not depend on the
network or JSON oracles, i.e. no request is built or sent. -/
theorem empty_health_path_no_request (net : NetOutcome) (parse : JsonOracle) (i : Nat) :
    fetchHealthCmdWithContext "" net parse i
      = { data := none, err := some "health endpoint not configured", index := i }
    ∧ ∀ (net2 : NetOutcome) (parse2 : JsonOracle),
        fetchHealthCmdWithContext "" net parse i
          = fetchHealthCmdWithContext "" net2 parse2 i :=
  ⟨rfl, fun _ _ => rfl⟩

/-- C3: one-step characterization of the Scheduler's cycle: a tick issues the
reachability probe; a ping failure schedules the fixed-interval delay (so the
health check is skipped that cycle); a ping success with a configured health
path issues the health probe next; a completed health check — any outcome —
schedules the delay; a ping success without a configured health path
schedules the delay directly. -/
theorem cycle_order (pd : DurOracle) (m : Model) :
    (∀ i, (update pd m (Msg.tick i)).2 = some (Cmd.ping (m.websites.getD i "") i))
    ∧ (∀ r e i, (update pd m (Msg.pingRes r (some e) i)).2
        = some (schedulePing pd m.schedule i))
    ∧ (∀ r i, i < m.healthEndpoint.length → m.healthEndpoint.getD i "" ≠ "" →
        (update pd m (Msg.pingRes r none i)).2
          = some (Cmd.fetchHealth (m.websites.getD i "") (m.healthEndpoint.getD i "") i))
    ∧ (∀ r i, ¬(i < m.healthEndpoint.length ∧ m.healthEndpoint.getD i "" ≠ "") →
        (update pd m (Msg.pingRes r none i)).2 = some (schedulePing pd m.schedule i))
    ∧ (∀ d e i, (update pd m (Msg.healthRes d e i)).2
        = some (schedulePing pd m.schedule i)) := by
  refine ⟨fun i => rfl, fun r e i => rfl, ?_, ?_, ?_⟩
  · intro r i h1 h2
    simp only [update]
    split
    next => rfl
    next hcond => exact absurd ⟨h1, h2⟩ hcond
  · intro r i hc
    simp only [update]
    split
    next hcond => exact absurd hcond hc
    next => rfl
  · intro d e i
    cases e with
    | none => rfl
    | some e => rfl

/-- Witness for C3: all five cycle steps on the concrete models `mA`
(configured health path) and `mB` (no health path). -/
theorem cycle_order_witness :
    (update pd0 mA (Msg.tick 0)).2 = some (Cmd.ping "a.com" 0)
    ∧ (update pd0 mA (Msg.pingRes "r" (some "e") 0)).2 = some (Cmd.sleepTick 10000000000 0)
    ∧ (update pd0 mA (Msg.pingRes "ok" none 0)).2 = some (Cmd.fetchHealth "a.com" "/health" 0)
    ∧ (update pd0 mB (Msg.pingRes "ok" none 0)).2 = some (Cmd.sleepTick 10000000000 0)
    ∧ (update pd0 mA (Msg.healthRes none (some "bad") 0)).2 = some (Cmd.sleepTick 10000000000 0) := by
  refine ⟨(cycle_order pd0 mA).1 0, ?_, ?_, ?_, ?_⟩
  · exact (cycle_order pd0 mA).2.1 "r" "e" 0
  · exact (cycle_order pd0 mA).2.2.1 "ok" 0 (by decide) (by decide)
  · exact (cycle_order pd0 mB).2.2.2.1 "ok" 0 (by decide)
  · exact (cycle_order pd0 mA).2.2.2.2 none (some "bad") 0

/-- C7: when the configured schedule parses (which `isValidSchedule` checked
at startup), the default-substitution branch of `schedulePing` is dead code:
every delayed tick scheduled by the update loop sleeps exactly the parsed
duration. -/
theorem valid_schedule_no_default (pd : DurOracle) (m : Model) (d : Int)
    (hv : pd m.schedule = some d) :
    (∀ i, schedulePing pd m.schedule i = Cmd.sleepTick d i)
    ∧ (∀ msg dur i, (update pd m msg).2 = some (Cmd.sleepTick dur i) → dur = d) := by
  have hs : ∀ i, schedulePing pd m.schedule i = Cmd.sleepTick d i := by
    intro i; simp [schedulePing, hv]
  refine ⟨hs, ?_⟩
  intro msg dur i h
  cases msg with
  | tick idx => simp [update] at h
  | pingRes r err idx =>
      cases err with
      | some e =>
          simp [update, hs] at h
          omega
      | none =>
          simp only [update] at h
          split at h
          · simp at h
          · simp [hs] at h
            omega
  | healthRes dd err idx =>
      cases err with
      | none => simp [update, hs] at h; omega
      | some e => simp [update, hs] at h; omega
  | key k =>
      simp only [update] at h
      split at h
      · simp at h
      · simp at h

/-- Witness for C7: the concrete oracle `pd0` parses `mA`'s schedule `"10s"`,
and the scheduled tick sleeps exactly that duration. -/
theorem valid_schedule_no_default_witness :
    pd0 mA.schedule = some 10000000000
    ∧ schedulePing pd0 mA.schedule 0 = Cmd.sleepTick 10000000000 0 := by
  have hv : pd0 mA.schedule = some 10000000000 := by decide
  exact ⟨hv, (valid_schedule_no_default pd0 mA 10000000000 hv).1 0⟩

/-- C8: classification of the health command on a completed HTTP response:
a status outside 200–299 yields a failure whose text carries the numeric
status code and the response body; a 2xx body that unmarshals as a JSON
object yields that object unmodified; a 2xx body that does not yields the
invalid-JSON failure. -/
theorem health_response_classification (ep : String) (hne : ep ≠ "")
    (parse : JsonOracle) (status : Nat) (body : String) (i : Nat) :
    (status < 200 ∨ 300 ≤ status →
      fetchHealthCmdWithContext ep (NetOutcome.resp status body) parse i
        = { data := none,
            err := some ("health endpoint HTTP " ++ toString status ++ ": " ++ body),
            index := i })
    ∧ (200 ≤ status → status < 300 → ∀ d, parse body = Except.ok d →
      fetchHealthCmdWithContext ep (NetOutcome.resp status body) parse i
        = { data := some d, err := none, index := i })
    ∧ (200 ≤ status → status < 300 → ∀ e, parse body = Except.error e →
      fetchHealthCmdWithContext ep (NetOutcome.resp status body) parse i
        = { data := none,
            err := some ("invalid JSON from health endpoint: " ++ e ++ "\nBody: " ++ body),
            index := i }) := by
  refine ⟨?_, ?_, ?_⟩
  · intro hst
    simp [fetchHealthCmdWithContext, hne, hst]
  · intro h1 h2 d hp
    have hst : ¬(status < 200 ∨ 300 ≤ status) := by omega
    simp [fetchHealthCmdWithContext, hne, hst, hp]
  · intro h1 h2 e hp
    have hst : ¬(status < 200 ∨ 300 ≤ status) := by omega
    simp [fetchHealthCmdWithContext, hne, hst, hp]

/-- Witness for C8: the concrete parser `parse0` against a 500 response, a
200 response with the parsable body `"ok"`, and a 200 response with an
unparsable body. -/
theorem health_response_classification_witness :
    fetchHealthCmdWithContext "/health" (NetOutcome.resp 500 "oops") parse0 0
      = { data := none, err := some "health endpoint HTTP 500: oops", index := 0 }
    ∧ fetchHealthCmdWithContext "/health" (NetOutcome.resp 200 "ok") parse0 0
      = { data := some [("status", "up")], err := none, index := 0 }
    ∧ fetchHealthCmdWithContext "/health" (NetOutcome.resp 200 "zzz") parse0 0
      = { data := none, err := some "invalid JSON from health endpoint: bad\nBody: zzz",
          index := 0 } := by
  refine ⟨?_, ?_, ?_⟩
  · exact (health_response_classification "/health" (by decide) parse0 500 "oops" 0).1
      (by omega)
  · exact (health_response_classification "/health" (by decide) parse0 200 "ok" 0).2.1
      (by omega) (by omega) [("status", "up")] rfl
  · exact (health_response_classification "/health" (by decide) parse0 200 "zzz" 0).2.2
      (by omega) (by omega) "bad" rfl

/-- C6: every invalid-configuration case aborts startup with a message — a
`PING_WEBSITE` value that does not parse as a JSON string array, a malformed
target entry (the empty string included), an unparsable poll interval, an
unknown timezone, and a health-path list whose length differs from the target
list; none is silently replaced by a default. -/
theorem invalid_config_rejected (o : Oracles)
    (websiteEnv scheduleEnv timezoneEnv healthEnv : String) :
    (o.parseStringList websiteEnv = none →
      (mainStartup o websiteEnv scheduleEnv timezoneEnv healthEnv).isFailure = true)
    ∧ (∀ ws, o.parseStringList websiteEnv = some ws →
        (∃ w ∈ ws, isValidHostname o.parseIP w = false) →
        (mainStartup o websiteEnv scheduleEnv timezoneEnv healthEnv).isFailure = true)
    ∧ (∀ ws, o.parseStringList websiteEnv = some ws → ws ≠ [] →
        (∀ w ∈ ws, isValidHostname o.parseIP w = true) →
        scheduleEnv ≠ "" → o.parseDuration scheduleEnv = none →
        (mainStartup o websiteEnv scheduleEnv timezoneEnv healthEnv).isFailure = true)
    ∧ (∀ ws, o.parseStringList websiteEnv = some ws → ws ≠ [] →
        (∀ w ∈ ws, isValidHostname o.parseIP w = true) →
        isValidSchedule o.parseDuration
          (if scheduleEnv = "" then DefaultSchedule else scheduleEnv) = true →
        timezoneEnv ≠ "" → o.loadLocation timezoneEnv = none →
        (mainStartup o websiteEnv scheduleEnv timezoneEnv healthEnv).isFailure = true)
    ∧ (∀ ws hs, o.parseStringList websiteEnv = some ws → ws ≠ [] →
        (∀ w ∈ ws, isValidHostname o.parseIP w = true) →
        isValidSchedule o.parseDuration
          (if scheduleEnv = "" then DefaultSchedule else scheduleEnv) = true →
        (timezoneEnv = "" ∨ ∃ loc, o.loadLocation timezoneEnv = some loc) →
        healthEnv ≠ "" → o.parseStringList healthEnv = some hs →
        hs.length ≠ ws.length →
        (mainStartup o websiteEnv scheduleEnv timezoneEnv healthEnv).isFailure = true) := by
  refine ⟨?_, ?_, ?_, ?_, ?_⟩
  · intro h
    simp [mainStartup, h, StartupResult.isFailure]
  · intro ws hws hbad
    by_cases hemp : ws.isEmpty
    · simp [mainStartup, hws, hemp, StartupResult.isFailure]
    · obtain ⟨w, hmem, hval⟩ := hbad
      have hfind : (ws.find? (fun w => !isValidHostname o.parseIP w)).isSome := by
        rw [List.find?_isSome]
        exact ⟨w, hmem, by simp [hval]⟩
      obtain ⟨w0, hw0⟩ := Option.isSome_iff_exists.mp hfind
      simp [mainStartup, hws, hemp, hw0, StartupResult.isFailure]
  · intro ws hws hne hall hsne hd
    have hemp : ws.isEmpty = false := by
      cases ws with
      | nil => exact absurd rfl hne
      | cons a l => rfl
    have hfind : ws.find? (fun w => !isValidHostname o.parseIP w) = none :=
      List.find?_eq_none.mpr (by intro x hx; simp [hall x hx])
    simp [mainStartup, hws, hemp, hfind, hsne, isValidSchedule, hd,
      StartupResult.isFailure]
  · intro ws hws hne hall hsv htzne htz
    have hemp : ws.isEmpty = false := by
      cases ws with
      | nil => exact absurd rfl hne
      | cons a l => rfl
    have hfind : ws.find? (fun w => !isValidHostname o.parseIP w) = none :=
      List.find?_eq_none.mpr (by intro x hx; simp [hall x hx])
    simp [mainStartup, hws, hemp, hfind, hsv, htzne, htz, StartupResult.isFailure]
  · intro ws hs hws hne hall hsv htzok hhne hhs hlen
    have hemp : ws.isEmpty = false := by
      cases ws with
      | nil => exact absurd rfl hne
      | cons a l => rfl
    have hfind : ws.find? (fun w => !isValidHostname o.parseIP w) = none :=
      List.find?_eq_none.mpr (by intro x hx; simp [hall x hx])
    by_cases htzc : timezoneEnv = ""
    · subst htzc
      simp [mainStartup, hws, hemp, hfind, hsv, hhne, hhs, hlen,
        StartupResult.isFailure]
    · rcases htzok with h0 | ⟨loc, hloc⟩
      · exact absurd h0 htzc
      · simp [mainStartup, hws, hemp, hfind, hsv, htzc, hloc, hhne, hhs, hlen,
          StartupResult.isFailure]

/-- Witness for C6: each invalid-configuration case on the concrete oracle
set `oracles0` (unparsable target list, empty-string target entry, unparsable
interval, unknown timezone, mismatched health-path list). -/
theorem invalid_config_rejected_witness :
    (mainStartup oracles0 "nope" "10s" "" "").isFailure = true
    ∧ (mainStartup oracles0 "bad-entry" "10s" "" "").isFailure = true
    ∧ (mainStartup oracles0 "good" "2x" "" "").isFailure = true
    ∧ (mainStartup oracles0 "good" "10s" "Mars/Base" "").isFailure = true
    ∧ (mainStartup oracles0 "two" "10s" "" "one-path").isFailure = true := by
  refine ⟨?_, ?_, ?_, ?_, ?_⟩
  · exact (invalid_config_rejected oracles0 "nope" "10s" "" "").1 rfl
  · exact (invalid_config_rejected oracles0 "bad-entry" "10s" "" "").2.1 [""] rfl
      ⟨"", by decide, by decide⟩
  · exact (invalid_config_rejected oracles0 "good" "2x" "" "").2.2.1 ["a.com"] rfl
      (by decide) (by decide) (by decide) rfl
  · exact (invalid_config_rejected oracles0 "good" "10s" "Mars/Base" "").2.2.2.1
      ["a.com"] rfl (by decide) (by decide) (by decide) (by decide) rfl
  · exact (invalid_config_rejected oracles0 "two" "10s" "" "one-path").2.2.2.2
      ["a.com", "b.com"] ["/health"] rfl (by decide) (by decide) (by decide)
      (Or.inl rfl) (by decide) rfl (by decide)

/-- C10: a non-empty `HEALTH_ENDPOINT` that does not parse as a JSON array is
not a startup error — the raw string is replicated verbatim as the health path
of every target; an empty `HEALTH_ENDPOINT` yields an empty (disabled) health
path for every target. -/
theorem health_endpoint_fallback (o : Oracles)
    (websiteEnv scheduleEnv healthEnv : String) (ws : List String)
    (h1 : o.parseStringList websiteEnv = some ws) (h2 : ws ≠ [])
    (h3 : ∀ w ∈ ws, isValidHostname o.parseIP w = true)
    (h4 : isValidSchedule o.parseDuration
        (if scheduleEnv = "" then DefaultSchedule else scheduleEnv) = true) :
    (healthEnv ≠ "" → o.parseStringList healthEnv = none →
      mainStartup o websiteEnv scheduleEnv "" healthEnv
        = StartupResult.run
            { websites := ws,
              schedule := if scheduleEnv = "" then DefaultSchedule else scheduleEnv,
              timezone := none,
              healthEndpoints := ws.map (fun _ => healthEnv) })
    ∧ (healthEnv = "" →
      mainStartup o websiteEnv scheduleEnv "" healthEnv
        = StartupResult.run
            { websites := ws,
              schedule := if scheduleEnv = "" then DefaultSchedule else scheduleEnv,
              timezone := none,
              healthEndpoints := ws.map (fun _ => "") }) := by
  have hemp : ws.isEmpty = false := by
    cases ws with
    | nil => exact absurd rfl h2
    | cons a l => rfl
  have hfind : ws.find? (fun w => !isValidHostname o.parseIP w) = none :=
    List.find?_eq_none.mpr (by intro x hx; simp [h3 x hx])
  constructor
  · intro hne hnone
    simp [mainStartup, h1, hemp, hfind, h4, hne, hnone]
  · intro h0
    subst h0
    simp [mainStartup, h1, hemp, hfind, h4]

/-- Witness for C10: on `oracles0`, the unparsable single path `"/health"` is
replicated for both targets, and an empty `HEALTH_ENDPOINT` disables health
checking for the single target. -/
theorem health_endpoint_fallback_witness :
    mainStartup oracles0 "two" "10s" "" "/health"
      = StartupResult.run
          { websites := ["a.com", "b.com"], schedule := "10s", timezone := none,
            healthEndpoints := ["/health", "/health"] }
    ∧ mainStartup oracles0 "good" "10s" "" ""
      = StartupResult.run
          { websites := ["a.com"], schedule := "10s", timezone := none,
            healthEndpoints := [""] } := by
  constructor
  · have h := (health_endpoint_fallback oracles0 "two" "10s" "/health"
      ["a.com", "b.com"] rfl (by decide) (by decide) (by decide)).1 (by decide) rfl
    simpa using h
  · have h := (health_endpoint_fallback oracles0 "good" "10s" ""
      ["a.com"] rfl (by decide) (by decide) (by decide)).2 rfl
    simpa using h

/-- Counterexample for C9: `View` is not a pure function of the model state.
It reads `time.Now()` to render the "Last checked" line whenever a ping
success is stored, so on the fixed state `mA` two invocations at different
clock readings produce different output. -/
theorem view_clock_counterexample :
    view idStyles fmt0 "A" mA ≠ view idStyles fmt0 "BB" mA := by
  decide

/-- C9 (amended): `View` is a pure function of the model state *and the
render-time clock reading*; the clock only feeds the "Last checked" line of
targets with a stored ping success, so on any state with no stored ping
success the output is identical across invocations regardless of the clock. -/
theorem view_pure_of_state_and_clock (st : Styles) (fmtTs : String → Option String)
    (m : Model) (h : ∀ s ∈ m.lastPing, s = "") (n1 n2 : String) :
    view st fmtTs n1 m = view st fmtTs n2 m := by
  have hg : ∀ i : Nat, (m.lastPing[i]?).getD "" = "" := by
    intro i
    cases hq : m.lastPing[i]? with
    | none => rfl
    | some s =>
        have hs : s ∈ m.lastPing := List.getElem?_mem hq
        simp [h s hs]
  simp [view, viewTarget, hg]

/-- Witness for C9 (amended): the concrete model `mB` stores no ping success,
and its view is the same at two different clock readings. -/
theorem view_pure_of_state_and_clock_witness :
    view idStyles fmt0 "morning" mB = view idStyles fmt0 "evening" mB :=
  view_pure_of_state_and_clock idStyles fmt0 mB (by decide) "morning" "evening"

end Vivteno
